import Mathlib

/-!
Verification of the EMOTION-INSIGHT sentiment engine
(`sentiment_analyzer.py`, `app.py`) against its specification.

The engine's external capabilities (NLTK VADER lexicon scorer, TextBlob
polarity/subjectivity estimator, sentence tokenizer, noun-phrase chunker,
POS tagger) are modelled as an abstract, immutable `Resources` record:
every engine function is parameterised over it, matching the spec's view
of these as pre-loaded, read-only resources.  Real arithmetic is modelled
over `ℚ`.
-/

/-- Substring test on character lists: `startsWithList n h` is true iff
`n` is an initial segment of `h`. -/
def startsWithList : List Char → List Char → Bool
  | [], _ => true
  | _ :: _, [] => false
  | a :: as, b :: bs => a == b && startsWithList as bs

/-- Predicate `containsAt n h` is true iff `n` occurs as a contiguous sublist of `h`. -/
def containsAt : List Char → List Char → Bool
  | n, [] => startsWithList n []
  | n, b :: bs => startsWithList n (b :: bs) || containsAt n bs

/-- Python's `needle in haystack` on strings: substring containment. -/
def containsSubstr (needle haystack : String) : Bool :=
  containsAt needle.toList haystack.toList

/-- Python's `str.lower()`: character-wise lowercasing. -/
def str_lower (s : String) : String := String.mk (s.toList.map Char.toLower)

/-- The three sentiment classes produced by the engine. -/
inductive Classification where
  | Positive
  | Negative
  | Neutral
deriving DecidableEq, Repr

/-- The fixed-threshold classification if-chain, written identically at
sentiment_analyzer.py lines 39-44 and 206-211:
`compound ≥ 0.05 → Positive`, `compound ≤ -0.05 → Negative`, else
`Neutral`. -/
def classify_compound (c : ℚ) : Classification :=
  if c ≥ 5/100 then Classification.Positive
  else if c ≤ -(5/100) then Classification.Negative
  else Classification.Neutral

/-- Immutable external resources: the VADER lexicon scorer's four outputs,
TextBlob's polarity and subjectivity, and the segmentation capability
(sentence tokenizer, noun-phrase chunker, POS tagger). -/
structure Resources where
  vader_compound : String → ℚ
  vader_pos : String → ℚ
  vader_neg : String → ℚ
  vader_neu : String → ℚ
  blob_polarity : String → ℚ
  blob_subjectivity : String → ℚ
  sent_tokenize : String → List String
  noun_phrases : String → List String
  pos_tag : String → List (String × String)

/-- Result record of `perform_basic_sentiment_analysis`. -/
structure SentimentScore where
  compound : ℚ
  positive : ℚ
  negative : ℚ
  neutral : ℚ
  subjectivity : ℚ
  classification : Classification
  confidence : ℚ
deriving DecidableEq, Repr

/-- Embeds `perform_basic_sentiment_analysis` (sentiment_analyzer.py lines 22-58):
averages the VADER compound and the TextBlob polarity, classifies the
average by the fixed ±0.05 thresholds, and sets
`confidence = min 1 (|compound| + 0.5)`. -/
def perform_basic_sentiment_analysis (env : Resources) (text : String) :
    SentimentScore :=
  let compound_score := (env.vader_compound text + env.blob_polarity text) / 2
  let classification := classify_compound compound_score
  let confidence := min 1 (|compound_score| + 1/2)
  { compound := compound_score
    positive := env.vader_pos text
    negative := env.vader_neg text
    neutral := env.vader_neu text
    subjectivity := env.blob_subjectivity text
    classification := classification
    confidence := confidence }

/-- Emotion intensity profile over the fixed emotion vocabulary. -/
structure EmotionProfile where
  joy : ℚ
  sadness : ℚ
  anger : ℚ
  fear : ℚ
  surprise : ℚ
  neutral : ℚ
deriving DecidableEq, Repr

def joy_words : List String :=
  ["happy", "joy", "delighted", "excited", "glad", "pleased", "thrilled"]

def sadness_words : List String :=
  ["sad", "unhappy", "disappointed", "depressed", "upset", "miserable"]

def anger_words : List String :=
  ["angry", "furious", "enraged", "annoyed", "irritated", "frustrated"]

def fear_words : List String :=
  ["afraid", "scared", "frightened", "terrified", "worried", "anxious"]

def surprise_words : List String :=
  ["surprised", "amazed", "astonished", "shocked", "stunned"]

/-- The per-emotion accumulation loop of `perform_emotion_analysis`:
for each keyword of the list, add 0.2 if it occurs in the lowercased text. -/
def emotion_accum (ws : List String) (text_lower : String) : ℚ :=
  ws.foldl (fun acc w => if containsSubstr w text_lower then acc + 1/5 else acc) 0

/-- Embeds `perform_emotion_analysis` (sentiment_analyzer.py lines 60-134), the
lexicon fallback path; the model-based classifier is `None` in the source
(line 20), so this path always runs.  Each emotion accumulates 0.2 per
matched keyword, is capped at 1.0, and `neutral` is 1.0 when the total is
zero, else `max 0 (1 - total)`. -/
def perform_emotion_analysis (text : String) : EmotionProfile :=
  let text_lower := str_lower text
  let joy := min 1 (emotion_accum joy_words text_lower)
  let sadness := min 1 (emotion_accum sadness_words text_lower)
  let anger := min 1 (emotion_accum anger_words text_lower)
  let fear := min 1 (emotion_accum fear_words text_lower)
  let surprise := min 1 (emotion_accum surprise_words text_lower)
  let total := joy + sadness + anger + fear + surprise + min 1 0
  let neutral := if total = 0 then 1 else max 0 (1 - total)
  { joy := joy, sadness := sadness, anger := anger, fear := fear,
    surprise := surprise, neutral := neutral }

/-- The raw candidate-aspect list of `extract_aspects` before
deduplication (sentiment_analyzer.py lines 142-169): noun phrases if the
chunker produced any, otherwise all nouns (POS tag starting with `NN`)
longer than 2 characters, in sentence order. -/
def raw_aspects (env : Resources) (text : String) : List String :=
  let noun_phrases := env.noun_phrases text
  let sentences := env.sent_tokenize text
  if noun_phrases.isEmpty then
    (sentences.map fun sentence =>
      (((env.pos_tag sentence).filter fun wp => wp.2.startsWith "NN").map
          Prod.fst).filter fun noun => noun.length > 2).flatten
  else
    noun_phrases

/-- One step of the deduplication loop of `extract_aspects`
(sentiment_analyzer.py lines 171-175): append the aspect iff it is new and
longer than 2 characters. -/
def dedup_step (acc : List String) (aspect : String) : List String :=
  if aspect ∉ acc ∧ aspect.length > 2 then acc ++ [aspect] else acc

/-- Embeds `extract_aspects` (sentiment_analyzer.py lines 136-178): deduplicate
the raw candidates preserving order, then keep the first 5. -/
def extract_aspects (env : Resources) (text : String) : List String :=
  ((raw_aspects env text).foldl dedup_step []).take 5

/-- Spec-side definition, written from the spec's words ("Deduplicate
while preserving first-occurrence order ... keep only tokens longer than 2
characters"): keep each term longer than 2 characters the first time it
appears, in input order, dropping every later duplicate; `seen` holds the
terms already kept.  Stated independently of the source's fold so the two
can be proved equal. -/
def first_occurrence_dedup (seen : List String) : List String → List String
  | [] => []
  | a :: l =>
    if a ∉ seen ∧ a.length > 2 then a :: first_occurrence_dedup (a :: seen) l
    else first_occurrence_dedup seen l

/-- Output record of the aspect sentiment resolver. -/
structure AspectSentiment where
  aspect : String
  sentiment : Classification
  score : ℚ
  context : String
deriving DecidableEq, Repr

/-- The per-aspect body of the resolver loop (sentiment_analyzer.py lines
194-227): average the compound over sentences containing the lowercased
aspect, or fall back to the whole-document sentiment. -/
def resolve_aspect (env : Resources) (text : String) (sentences : List String)
    (aspect : String) : AspectSentiment :=
  let relevant_sentences :=
    sentences.filter fun s => containsSubstr (str_lower aspect) (str_lower s)
  if relevant_sentences.isEmpty then
    let overall := perform_basic_sentiment_analysis env text
    { aspect := aspect, sentiment := overall.classification,
      score := overall.compound, context := "Inferred from overall text" }
  else
    let sentiments :=
      relevant_sentences.map (perform_basic_sentiment_analysis env)
    let avg_compound :=
      (sentiments.map (·.compound)).sum / (relevant_sentences.length : ℚ)
    let sentiment := classify_compound avg_compound
    { aspect := aspect, sentiment := sentiment, score := avg_compound,
      context := relevant_sentences.headD "" }

/-- The resolver loop of `perform_aspect_based_analysis`
(sentiment_analyzer.py lines 191-229), factored over an explicit aspect
list as in the spec's `resolve(text, aspects)` contract. -/
def resolve (env : Resources) (text : String) (aspects : List String) :
    List AspectSentiment :=
  aspects.map (resolve_aspect env text (env.sent_tokenize text))

/-- Embeds `perform_aspect_based_analysis` (sentiment_analyzer.py lines 180-229). -/
def perform_aspect_based_analysis (env : Resources) (text : String) :
    List AspectSentiment :=
  let aspects := extract_aspects env text
  if aspects.isEmpty then [] else resolve env text aspects

/-- The aggregate returned by `analyze_text` (app.py lines 71-102). -/
structure AnalysisResult where
  timestamp : String
  text : String
  sentiment : SentimentScore
  emotions : EmotionProfile
  aspects : List AspectSentiment
deriving DecidableEq, Repr

/-- Embeds `analyze_text` (app.py lines 71-102): runs the three analyses and
stamps the wall-clock time of the call, modelled as the explicit `now`
argument (the database save does not affect the returned value). -/
def analyze_text (env : Resources) (now : String) (text : String) :
    AnalysisResult :=
  { timestamp := now
    text := text
    sentiment := perform_basic_sentiment_analysis env text
    emotions := perform_emotion_analysis text
    aspects := perform_aspect_based_analysis env text }

/-- Number of keywords of the list occurring in the lowercased text
(each keyword counted once, however many times it occurs). -/
def count_matched (ws : List String) (text_lower : String) : Nat :=
  (ws.filter fun w => containsSubstr w text_lower).length

/-- All five emotion keyword lists concatenated. -/
def all_emotion_words : List String :=
  joy_words ++ sadness_words ++ anger_words ++ fear_words ++ surprise_words

/-- True iff no emotion keyword occurs in the lowercased text. -/
def no_emotion_keyword (text : String) : Bool :=
  all_emotion_words.all fun w => !(containsSubstr w (str_lower text))

/-- Concrete resources for witness evaluations: a given compound scorer,
the segmentation capability returning nothing. -/
def mk_resources (f : String → ℚ) : Resources :=
  { vader_compound := f
    vader_pos := fun _ => 0
    vader_neg := fun _ => 0
    vader_neu := fun _ => 0
    blob_polarity := f
    blob_subjectivity := fun _ => 0
    sent_tokenize := fun _ => []
    noun_phrases := fun _ => []
    pos_tag := fun _ => [] }

/-- Resources whose scorers return 0 everywhere. -/
def zero_resources : Resources := mk_resources fun _ => 0

/-- Resources giving text "b" compound 0.8 and every other text 0.6. -/
def capped_resources : Resources :=
  mk_resources fun t => if t = "b" then 4/5 else 3/5

/-- Resources giving text "b" compound 0.3 and every other text 0.1. -/
def small_resources : Resources :=
  mk_resources fun t => if t = "b" then 3/10 else 1/10

/-- Resources with one fixed sentence list, for exercising the aspect
pipeline: the chunker returns ["food", "service"] and the tokenizer
returns two sentences. -/
def aspect_resources : Resources :=
  { vader_compound := fun t => if containsSubstr "great" t then 4/5
      else if containsSubstr "bad" t then -(4/5) else 0
    vader_pos := fun _ => 0
    vader_neg := fun _ => 0
    vader_neu := fun _ => 0
    blob_polarity := fun _ => 0
    blob_subjectivity := fun _ => 0
    sent_tokenize := fun _ => ["The food was great.", "The service was bad."]
    noun_phrases := fun _ => ["food", "service"]
    pos_tag := fun _ => [] }

/-- The classifier returns `Positive` exactly on the upper threshold. -/
theorem classify_compound_positive_iff (c : ℚ) :
    classify_compound c = Classification.Positive ↔ c ≥ 5/100 := by
  unfold classify_compound
  split_ifs with h h2
  · simp [h]
  · simp [h]
  · simp [h]

/-- The classifier returns `Negative` exactly on the lower threshold. -/
theorem classify_compound_negative_iff (c : ℚ) :
    classify_compound c = Classification.Negative ↔ c ≤ -(5/100) := by
  unfold classify_compound
  split_ifs with h h2
  · have hn : ¬(c ≤ -(5/100)) := by linarith
    simp [hn]
  · simp [h2]
  · simp [h2]

/-- The classifier returns `Neutral` exactly between the thresholds. -/
theorem classify_compound_neutral_iff (c : ℚ) :
    classify_compound c = Classification.Neutral ↔
      ¬(c ≥ 5/100) ∧ ¬(c ≤ -(5/100)) := by
  unfold classify_compound
  split_ifs with h h2
  · simp [h]
  · simp [h2]
  · simp [h, h2]

/-- C1: for every text, the classification of the aggregated sentiment
score is `Positive` iff `compound ≥ 0.05`, `Negative` iff
`compound ≤ -0.05`, and `Neutral` otherwise. -/
theorem sentiment_classification_thresholds (env : Resources) (t : String) :
    ((perform_basic_sentiment_analysis env t).classification =
        Classification.Positive ↔
      (perform_basic_sentiment_analysis env t).compound ≥ 5/100) ∧
    ((perform_basic_sentiment_analysis env t).classification =
        Classification.Negative ↔
      (perform_basic_sentiment_analysis env t).compound ≤ -(5/100)) ∧
    ((perform_basic_sentiment_analysis env t).classification =
        Classification.Neutral ↔
      ¬((perform_basic_sentiment_analysis env t).compound ≥ 5/100) ∧
      ¬((perform_basic_sentiment_analysis env t).compound ≤ -(5/100))) := by
  have h : (perform_basic_sentiment_analysis env t).classification =
      classify_compound (perform_basic_sentiment_analysis env t).compound := rfl
  rw [h]
  exact ⟨classify_compound_positive_iff _, classify_compound_negative_iff _,
    classify_compound_neutral_iff _⟩

/-- C7: confidence equals `min 1 (|compound| + 0.5)` and always lies in
`[0.5, 1]`. -/
theorem confidence_formula_and_bounds (env : Resources) (t : String) :
    (perform_basic_sentiment_analysis env t).confidence =
      min 1 (|(perform_basic_sentiment_analysis env t).compound| + 1/2) ∧
    1/2 ≤ (perform_basic_sentiment_analysis env t).confidence ∧
    (perform_basic_sentiment_analysis env t).confidence ≤ 1 := by
  have h : (perform_basic_sentiment_analysis env t).confidence =
      min 1 (|(perform_basic_sentiment_analysis env t).compound| + 1/2) := rfl
  refine ⟨h, ?_, ?_⟩
  · rw [h]
    refine le_min (by norm_num) ?_
    have := abs_nonneg (perform_basic_sentiment_analysis env t).compound
    linarith
  · rw [h]
    exact min_le_left _ _

/-- C8 counterexample: with the cap at 1.0, two texts of compound 0.6 and
0.8 have strictly ordered magnitudes but equal confidence 1.0, so
confidence is not strictly increasing in polarity magnitude. -/
theorem confidence_strict_mono_counterexample :
    |(perform_basic_sentiment_analysis capped_resources "a").compound| <
      |(perform_basic_sentiment_analysis capped_resources "b").compound| ∧
    ¬((perform_basic_sentiment_analysis capped_resources "a").confidence <
      (perform_basic_sentiment_analysis capped_resources "b").confidence) := by
  have e1 : (perform_basic_sentiment_analysis capped_resources "a").compound
      = 3/5 := by
    show (capped_resources.vader_compound "a" +
      capped_resources.blob_polarity "a") / 2 = 3/5
    simp [capped_resources, mk_resources]
  have e2 : (perform_basic_sentiment_analysis capped_resources "b").compound
      = 4/5 := by
    show (capped_resources.vader_compound "b" +
      capped_resources.blob_polarity "b") / 2 = 4/5
    simp [capped_resources, mk_resources]
  have a1 : |(3/5 : ℚ)| = 3/5 := abs_of_nonneg (by norm_num)
  have a2 : |(4/5 : ℚ)| = 4/5 := abs_of_nonneg (by norm_num)
  have hcfa : (perform_basic_sentiment_analysis capped_resources "a").confidence
      = min 1 (|(perform_basic_sentiment_analysis capped_resources
          "a").compound| + 1/2) := rfl
  have hcfb : (perform_basic_sentiment_analysis capped_resources "b").confidence
      = min 1 (|(perform_basic_sentiment_analysis capped_resources
          "b").compound| + 1/2) := rfl
  constructor
  · rw [e1, e2, a1, a2]
    norm_num
  · rw [hcfa, hcfb, e1, e2, a1, a2]
    norm_num [min_def]

/-- C8 (amended): confidence is non-decreasing in polarity magnitude, and
strictly increasing as long as the larger magnitude is at most 0.5 (i.e.
below the 1.0 confidence cap). -/
theorem confidence_monotone_in_magnitude (env : Resources) (t1 t2 : String)
    (h : |(perform_basic_sentiment_analysis env t1).compound| <
      |(perform_basic_sentiment_analysis env t2).compound|) :
    (perform_basic_sentiment_analysis env t1).confidence ≤
      (perform_basic_sentiment_analysis env t2).confidence ∧
    (|(perform_basic_sentiment_analysis env t2).compound| ≤ 1/2 →
      (perform_basic_sentiment_analysis env t1).confidence <
        (perform_basic_sentiment_analysis env t2).confidence) := by
  have h1 : (perform_basic_sentiment_analysis env t1).confidence =
      min 1 (|(perform_basic_sentiment_analysis env t1).compound| + 1/2) := rfl
  have h2 : (perform_basic_sentiment_analysis env t2).confidence =
      min 1 (|(perform_basic_sentiment_analysis env t2).compound| + 1/2) := rfl
  constructor
  · rw [h1, h2]
    exact min_le_min le_rfl (by linarith)
  · intro hcap
    rw [h1, h2]
    have he : min 1 (|(perform_basic_sentiment_analysis env t2).compound| + 1/2)
        = |(perform_basic_sentiment_analysis env t2).compound| + 1/2 :=
      min_eq_right (by linarith)
    rw [he]
    exact lt_of_le_of_lt (min_le_right _ _) (by linarith)

/-- C8 witness: for compounds 0.1 < 0.3 (both below the cap) the
confidence strictly increases. -/
theorem confidence_monotone_witness :
    (perform_basic_sentiment_analysis small_resources "a").confidence <
      (perform_basic_sentiment_analysis small_resources "b").confidence := by
  have e1 : (perform_basic_sentiment_analysis small_resources "a").compound
      = 1/10 := by
    show (small_resources.vader_compound "a" +
      small_resources.blob_polarity "a") / 2 = 1/10
    simp [small_resources, mk_resources]
  have e2 : (perform_basic_sentiment_analysis small_resources "b").compound
      = 3/10 := by
    show (small_resources.vader_compound "b" +
      small_resources.blob_polarity "b") / 2 = 3/10
    simp [small_resources, mk_resources]
  refine (confidence_monotone_in_magnitude small_resources "a" "b" ?_).2 ?_
  · rw [e1, e2, abs_of_nonneg (by norm_num : (0:ℚ) ≤ 1/10),
      abs_of_nonneg (by norm_num : (0:ℚ) ≤ 3/10)]
    norm_num
  · rw [e2, abs_of_nonneg (by norm_num : (0:ℚ) ≤ 3/10)]
    norm_num

/-- C6: whenever both underlying scorers return zero polarity and the
segmentation produces no noun phrases and no sentences (as on empty or
whitespace-only text), the engine returns compound 0, classification
`Neutral`, confidence 0.5 and an empty aspect list, raising no error. -/
theorem empty_input_defined_behavior (env : Resources) (t : String)
    (hv : env.vader_compound t = 0) (hb : env.blob_polarity t = 0)
    (hnp : env.noun_phrases t = []) (hst : env.sent_tokenize t = []) :
    (perform_basic_sentiment_analysis env t).compound = 0 ∧
    (perform_basic_sentiment_analysis env t).classification =
      Classification.Neutral ∧
    (perform_basic_sentiment_analysis env t).confidence = 1/2 ∧
    perform_aspect_based_analysis env t = [] := by
  have hc : (perform_basic_sentiment_analysis env t).compound = 0 := by
    show (env.vader_compound t + env.blob_polarity t) / 2 = 0
    rw [hv, hb]
    norm_num
  have hcl : (perform_basic_sentiment_analysis env t).classification =
      classify_compound (perform_basic_sentiment_analysis env t).compound := rfl
  have hcf : (perform_basic_sentiment_analysis env t).confidence =
      min 1 (|(perform_basic_sentiment_analysis env t).compound| + 1/2) := rfl
  refine ⟨hc, ?_, ?_, ?_⟩
  · rw [hcl, hc]
    norm_num [classify_compound]
  · rw [hcf, hc]
    norm_num [min_def]
  · simp [perform_aspect_based_analysis, extract_aspects, raw_aspects,
      hnp, hst]

/-- C6 witness: the zero resources on the empty string. -/
theorem empty_input_witness :
    (perform_basic_sentiment_analysis zero_resources "").compound = 0 ∧
    (perform_basic_sentiment_analysis zero_resources "").classification =
      Classification.Neutral ∧
    (perform_basic_sentiment_analysis zero_resources "").confidence = 1/2 ∧
    perform_aspect_based_analysis zero_resources "" = [] :=
  empty_input_defined_behavior zero_resources "" rfl rfl rfl rfl

/-- C9 counterexample: two calls of `analyze_text` on the identical text
with unchanged resources but made at different wall-clock instants return
results that are not bit-identical (the timestamp field differs). -/
theorem analyze_timestamp_counterexample :
    analyze_text zero_resources "2024-01-01 10:00:00" "good" ≠
      analyze_text zero_resources "2024-01-01 10:00:01" "good" := by
  intro h
  have ht := congrArg AnalysisResult.timestamp h
  simp [analyze_text] at ht

/-- C9 (amended): two calls of `analyze_text` on identical text with
unchanged resources agree on every field except the timestamp, which is
each call's own capture time; in particular calls sharing a capture time
are bit-identical. -/
theorem analyze_deterministic_modulo_timestamp (env : Resources)
    (now1 now2 t : String) :
    (analyze_text env now1 t).text = (analyze_text env now2 t).text ∧
    (analyze_text env now1 t).sentiment = (analyze_text env now2 t).sentiment ∧
    (analyze_text env now1 t).emotions = (analyze_text env now2 t).emotions ∧
    (analyze_text env now1 t).aspects = (analyze_text env now2 t).aspects ∧
    analyze_text env now1 t =
      { analyze_text env now2 t with timestamp := now1 } :=
  ⟨rfl, rfl, rfl, rfl, rfl⟩

/-- The emotion accumulation loop adds 0.2 exactly once per keyword of the
list that occurs in the lowercased text. -/
theorem emotion_accum_eq (ws : List String) (tl : String) :
    emotion_accum ws tl
      = ((ws.filter fun w => containsSubstr w tl).length : ℚ) * (1/5) := by
  have h : ∀ (l : List String) (init : ℚ),
      l.foldl (fun acc w => if containsSubstr w tl then acc + 1/5 else acc) init
        = init + ((l.filter fun w => containsSubstr w tl).length : ℚ) * (1/5) := by
    intro l
    induction l with
    | nil => intro init; simp
    | cons w l ih =>
      intro init
      simp only [List.foldl_cons, List.filter_cons]
      by_cases hw : containsSubstr w tl
      · rw [if_pos hw, if_pos hw, ih, List.length_cons]
        push_cast
        ring
      · rw [if_neg hw, if_neg hw, ih]
  simpa [emotion_accum] using h ws 0

/-- The emotion accumulation loop never returns a negative value. -/
theorem emotion_accum_nonneg (ws : List String) (tl : String) :
    0 ≤ emotion_accum ws tl := by
  rw [emotion_accum_eq]
  positivity

/-- The emotion accumulation loop returns 0 when no keyword matches. -/
theorem emotion_accum_zero_of (ws : List String) (tl : String)
    (h : ∀ w ∈ ws, containsSubstr w tl = false) : emotion_accum ws tl = 0 := by
  rw [emotion_accum_eq]
  have hf : (ws.filter fun w => containsSubstr w tl) = [] := by
    apply List.filter_eq_nil_iff.mpr
    intro a ha
    simp [h a ha]
  rw [hf]
  simp

/-- C3 counterexample: the text "happy happy happy happy happy" contains
five occurrences of the joy keyword "happy", yet its joy score is 0.2, not
1.0 — each keyword contributes 0.2 at most once, regardless of how many
occurrences it has. -/
theorem emotion_occurrence_counterexample :
    (perform_emotion_analysis "happy happy happy happy happy").joy = 1/5 ∧
    (perform_emotion_analysis "happy happy happy happy happy").joy ≠ 1 := by
  have hj : (perform_emotion_analysis "happy happy happy happy happy").joy
      = min 1 (emotion_accum joy_words
          (str_lower "happy happy happy happy happy")) := rfl
  have hc : ((joy_words.filter fun w => containsSubstr w
      (str_lower "happy happy happy happy happy")).length) = 1 := by decide
  rw [hj, emotion_accum_eq, hc]
  norm_num [min_def]

/-- C3 (amended): for every text and every emotion, each *distinct*
keyword of that emotion's list occurring (case-insensitively, as a
substring) in the text adds 0.2 to the emotion's score — independently of
its number of occurrences — capped at 1.0; hence a text in which five or
more distinct keywords of one emotion occur scores 1.0 for that emotion. -/
theorem emotion_distinct_keyword_scores (t : String) :
    ((perform_emotion_analysis t).joy
        = min 1 ((count_matched joy_words (str_lower t) : ℚ) * (1/5)) ∧
      (5 ≤ count_matched joy_words (str_lower t) →
        (perform_emotion_analysis t).joy = 1)) ∧
    ((perform_emotion_analysis t).sadness
        = min 1 ((count_matched sadness_words (str_lower t) : ℚ) * (1/5)) ∧
      (5 ≤ count_matched sadness_words (str_lower t) →
        (perform_emotion_analysis t).sadness = 1)) ∧
    ((perform_emotion_analysis t).anger
        = min 1 ((count_matched anger_words (str_lower t) : ℚ) * (1/5)) ∧
      (5 ≤ count_matched anger_words (str_lower t) →
        (perform_emotion_analysis t).anger = 1)) ∧
    ((perform_emotion_analysis t).fear
        = min 1 ((count_matched fear_words (str_lower t) : ℚ) * (1/5)) ∧
      (5 ≤ count_matched fear_words (str_lower t) →
        (perform_emotion_analysis t).fear = 1)) ∧
    ((perform_emotion_analysis t).surprise
        = min 1 ((count_matched surprise_words (str_lower t) : ℚ) * (1/5)) ∧
      (5 ≤ count_matched surprise_words (str_lower t) →
        (perform_emotion_analysis t).surprise = 1)) := by
  have key : ∀ (ws : List String) (v : ℚ),
      v = min 1 (emotion_accum ws (str_lower t)) →
      v = min 1 ((count_matched ws (str_lower t) : ℚ) * (1/5)) ∧
      (5 ≤ count_matched ws (str_lower t) → v = 1) := by
    intro ws v hv
    have he : v = min 1 ((count_matched ws (str_lower t) : ℚ) * (1/5)) := by
      rw [hv, emotion_accum_eq]
      rfl
    refine ⟨he, fun h5 => ?_⟩
    rw [he]
    have h5q : (5 : ℚ) ≤ (count_matched ws (str_lower t) : ℚ) := by
      exact_mod_cast h5
    have : (1 : ℚ) ≤ (count_matched ws (str_lower t) : ℚ) * (1/5) := by
      linarith
    exact min_eq_left this
  exact ⟨key joy_words _ rfl, key sadness_words _ rfl, key anger_words _ rfl,
    key fear_words _ rfl, key surprise_words _ rfl⟩

/-- C3 witness: a text containing five distinct joy keywords saturates the
joy score at 1.0. -/
theorem emotion_saturation_witness :
    (perform_emotion_analysis "happy joy delighted excited glad").joy = 1 :=
  (emotion_distinct_keyword_scores "happy joy delighted excited glad").1.2
    (by decide)

/-- The source's neutral computation (1.0 when the total is zero, else
`max 0 (1 - total)`, the total including the capped initial neutral 0)
coincides with `max 0 (1 - sum of the five emotions)`. -/
theorem neutral_formula (a b c d f : ℚ) :
    (if a + b + c + d + f + min 1 0 = 0 then (1:ℚ)
      else max 0 (1 - (a + b + c + d + f + min 1 0)))
      = max 0 (1 - (a + b + c + d + f)) := by
  have hm : min (1:ℚ) 0 = 0 := by norm_num [min_def]
  rw [hm, add_zero]
  split_ifs with h
  · rw [h]
    norm_num
  · rfl

/-- C4: the emotion profile satisfies
`neutral = max 0 (1 - Σ other emotions)`, every value lies in `[0, 1]`,
and a text with no emotion keyword gets `neutral = 1` and all five other
emotions 0. -/
theorem emotion_profile_invariants (t : String) :
    ((perform_emotion_analysis t).neutral
        = max 0 (1 - ((perform_emotion_analysis t).joy +
            (perform_emotion_analysis t).sadness +
            (perform_emotion_analysis t).anger +
            (perform_emotion_analysis t).fear +
            (perform_emotion_analysis t).surprise))) ∧
    (0 ≤ (perform_emotion_analysis t).joy ∧
      (perform_emotion_analysis t).joy ≤ 1) ∧
    (0 ≤ (perform_emotion_analysis t).sadness ∧
      (perform_emotion_analysis t).sadness ≤ 1) ∧
    (0 ≤ (perform_emotion_analysis t).anger ∧
      (perform_emotion_analysis t).anger ≤ 1) ∧
    (0 ≤ (perform_emotion_analysis t).fear ∧
      (perform_emotion_analysis t).fear ≤ 1) ∧
    (0 ≤ (perform_emotion_analysis t).surprise ∧
      (perform_emotion_analysis t).surprise ≤ 1) ∧
    (0 ≤ (perform_emotion_analysis t).neutral ∧
      (perform_emotion_analysis t).neutral ≤ 1) ∧
    (no_emotion_keyword t = true →
      (perform_emotion_analysis t).neutral = 1 ∧
      (perform_emotion_analysis t).joy = 0 ∧
      (perform_emotion_analysis t).sadness = 0 ∧
      (perform_emotion_analysis t).anger = 0 ∧
      (perform_emotion_analysis t).fear = 0 ∧
      (perform_emotion_analysis t).surprise = 0) := by
  have hj : (perform_emotion_analysis t).joy
      = min 1 (emotion_accum joy_words (str_lower t)) := rfl
  have hs : (perform_emotion_analysis t).sadness
      = min 1 (emotion_accum sadness_words (str_lower t)) := rfl
  have ha : (perform_emotion_analysis t).anger
      = min 1 (emotion_accum anger_words (str_lower t)) := rfl
  have hf : (perform_emotion_analysis t).fear
      = min 1 (emotion_accum fear_words (str_lower t)) := rfl
  have hsu : (perform_emotion_analysis t).surprise
      = min 1 (emotion_accum surprise_words (str_lower t)) := rfl
  have hn : (perform_emotion_analysis t).neutral
      = (if min 1 (emotion_accum joy_words (str_lower t)) +
            min 1 (emotion_accum sadness_words (str_lower t)) +
            min 1 (emotion_accum anger_words (str_lower t)) +
            min 1 (emotion_accum fear_words (str_lower t)) +
            min 1 (emotion_accum surprise_words (str_lower t)) + min 1 0 = 0
          then (1:ℚ)
          else max 0 (1 - (min 1 (emotion_accum joy_words (str_lower t)) +
            min 1 (emotion_accum sadness_words (str_lower t)) +
            min 1 (emotion_accum anger_words (str_lower t)) +
            min 1 (emotion_accum fear_words (str_lower t)) +
            min 1 (emotion_accum surprise_words (str_lower t)) + min 1 0))) :=
    rfl
  have bound : ∀ ws : List String,
      0 ≤ min 1 (emotion_accum ws (str_lower t)) ∧
      min 1 (emotion_accum ws (str_lower t)) ≤ 1 := fun ws =>
    ⟨le_min (by norm_num) (emotion_accum_nonneg ws (str_lower t)),
      min_le_left _ _⟩
  have hneq : (perform_emotion_analysis t).neutral
      = max 0 (1 - ((perform_emotion_analysis t).joy +
          (perform_emotion_analysis t).sadness +
          (perform_emotion_analysis t).anger +
          (perform_emotion_analysis t).fear +
          (perform_emotion_analysis t).surprise)) := by
    rw [hn, hj, hs, ha, hf, hsu]
    exact neutral_formula _ _ _ _ _
  refine ⟨hneq, ?_, ?_, ?_, ?_, ?_, ?_, ?_⟩
  · rw [hj]; exact bound joy_words
  · rw [hs]; exact bound sadness_words
  · rw [ha]; exact bound anger_words
  · rw [hf]; exact bound fear_words
  · rw [hsu]; exact bound surprise_words
  · constructor
    · rw [hneq]
      exact le_max_left _ _
    · rw [hneq]
      have s1 := (bound joy_words).1
      have s2 := (bound sadness_words).1
      have s3 := (bound anger_words).1
      have s4 := (bound fear_words).1
      have s5 := (bound surprise_words).1
      rw [hj, hs, ha, hf, hsu]
      apply max_le (by norm_num)
      linarith
  · intro hno
    have hw : ∀ w ∈ all_emotion_words, containsSubstr w (str_lower t) = false := by
      intro w hwmem
      have := (List.all_eq_true.mp hno) w hwmem
      simpa using this
    have hz : ∀ ws : List String,
        (∀ w ∈ ws, w ∈ all_emotion_words) →
        min 1 (emotion_accum ws (str_lower t)) = 0 := by
      intro ws hsub
      rw [emotion_accum_zero_of ws (str_lower t)
        (fun w hwm => hw w (hsub w hwm))]
      norm_num [min_def]
    have hzj : min 1 (emotion_accum joy_words (str_lower t)) = 0 :=
      hz joy_words (by intro w hwm; simp [all_emotion_words]; tauto)
    have hzs : min 1 (emotion_accum sadness_words (str_lower t)) = 0 :=
      hz sadness_words (by intro w hwm; simp [all_emotion_words]; tauto)
    have hza : min 1 (emotion_accum anger_words (str_lower t)) = 0 :=
      hz anger_words (by intro w hwm; simp [all_emotion_words]; tauto)
    have hzf : min 1 (emotion_accum fear_words (str_lower t)) = 0 :=
      hz fear_words (by intro w hwm; simp [all_emotion_words]; tauto)
    have hzsu : min 1 (emotion_accum surprise_words (str_lower t)) = 0 :=
      hz surprise_words (by intro w hwm; simp [all_emotion_words]; tauto)
    refine ⟨?_, ?_, ?_, ?_, ?_, ?_⟩
    · rw [hneq, hj, hs, ha, hf, hsu, hzj, hzs, hza, hzf, hzsu]
      norm_num
    · rw [hj, hzj]
    · rw [hs, hzs]
    · rw [ha, hza]
    · rw [hf, hzf]
    · rw [hsu, hzsu]

/-- C4 witness: "This is fine." contains no emotion keyword, so its
profile is fully neutral. -/
theorem emotion_profile_invariants_witness :
    (perform_emotion_analysis "This is fine.").neutral = 1 ∧
    (perform_emotion_analysis "This is fine.").joy = 0 ∧
    (perform_emotion_analysis "This is fine.").sadness = 0 ∧
    (perform_emotion_analysis "This is fine.").anger = 0 ∧
    (perform_emotion_analysis "This is fine.").fear = 0 ∧
    (perform_emotion_analysis "This is fine.").surprise = 0 :=
  (emotion_profile_invariants "This is fine.").2.2.2.2.2.2.2 (by decide)

/-- The deduplication step appends a new long-enough aspect. -/
theorem dedup_step_pos (acc : List String) (a : String)
    (h : a ∉ acc ∧ a.length > 2) : dedup_step acc a = acc ++ [a] := by
  unfold dedup_step
  exact if_pos h

/-- The deduplication step drops a duplicate or short aspect. -/
theorem dedup_step_neg (acc : List String) (a : String)
    (h : ¬(a ∉ acc ∧ a.length > 2)) : dedup_step acc a = acc := by
  unfold dedup_step
  exact if_neg h

/-- Every element produced by the deduplication fold is longer than 2
characters, provided the accumulator only holds such elements. -/
theorem dedup_foldl_long : ∀ (l acc : List String),
    (∀ x ∈ acc, x.length > 2) →
    ∀ x ∈ l.foldl dedup_step acc, x.length > 2 := by
  intro l
  induction l with
  | nil =>
    intro acc hacc x hx
    exact hacc x (by simpa using hx)
  | cons a l ih =>
    intro acc hacc x hx
    rw [List.foldl_cons] at hx
    refine ih (dedup_step acc a) ?_ x hx
    intro y hy
    by_cases hcond : a ∉ acc ∧ a.length > 2
    · rw [dedup_step_pos acc a hcond] at hy
      rcases List.mem_append.mp hy with h1 | h1
      · exact hacc y h1
      · obtain rfl := List.mem_singleton.mp h1
        exact hcond.2
    · rw [dedup_step_neg acc a hcond] at hy
      exact hacc y hy

/-- The deduplication fold preserves freedom from duplicates. -/
theorem dedup_foldl_nodup : ∀ (l acc : List String),
    acc.Nodup → (l.foldl dedup_step acc).Nodup := by
  intro l
  induction l with
  | nil =>
    intro acc h
    simpa using h
  | cons a l ih =>
    intro acc hacc
    rw [List.foldl_cons]
    apply ih
    by_cases hcond : a ∉ acc ∧ a.length > 2
    · rw [dedup_step_pos acc a hcond, List.nodup_append]
      refine ⟨hacc, List.nodup_singleton a, ?_⟩
      intro x hx hxa
      obtain rfl := List.mem_singleton.mp hxa
      exact hcond.1 hx
    · rw [dedup_step_neg acc a hcond]
      exact hacc

/-- The deduplication fold yields a sublist of the accumulator followed by
the input, so the relative order of the input is preserved. -/
theorem dedup_foldl_sublist : ∀ (l acc : List String),
    List.Sublist (l.foldl dedup_step acc) (acc ++ l) := by
  intro l
  induction l with
  | nil =>
    intro acc
    simp
  | cons a l ih =>
    intro acc
    rw [List.foldl_cons]
    by_cases hcond : a ∉ acc ∧ a.length > 2
    · rw [dedup_step_pos acc a hcond]
      have h := ih (acc ++ [a])
      have he : (acc ++ [a]) ++ l = acc ++ a :: l := by simp
      rwa [he] at h
    · rw [dedup_step_neg acc a hcond]
      exact (ih acc).trans
        (List.Sublist.append_left (List.sublist_cons_self a l) acc)

/-- Unfolding of the spec-side dedup on a kept head. -/
theorem first_occurrence_dedup_pos (seen : List String) (a : String)
    (l : List String) (h : a ∉ seen ∧ a.length > 2) :
    first_occurrence_dedup seen (a :: l)
      = a :: first_occurrence_dedup (a :: seen) l := by
  simp only [first_occurrence_dedup]
  rw [if_pos h]

/-- Unfolding of the spec-side dedup on a dropped head. -/
theorem first_occurrence_dedup_neg (seen : List String) (a : String)
    (l : List String) (h : ¬(a ∉ seen ∧ a.length > 2)) :
    first_occurrence_dedup seen (a :: l) = first_occurrence_dedup seen l := by
  simp only [first_occurrence_dedup]
  rw [if_neg h]

/-- The spec-side dedup depends on `seen` only through membership. -/
theorem first_occurrence_dedup_congr : ∀ (l s1 s2 : List String),
    (∀ x, x ∈ s1 ↔ x ∈ s2) →
    first_occurrence_dedup s1 l = first_occurrence_dedup s2 l := by
  intro l
  induction l with
  | nil =>
    intro s1 s2 h
    rfl
  | cons a l ih =>
    intro s1 s2 h
    by_cases hc : a ∉ s1 ∧ a.length > 2
    · have hc2 : a ∉ s2 ∧ a.length > 2 :=
        ⟨fun hm => hc.1 ((h a).mpr hm), hc.2⟩
      rw [first_occurrence_dedup_pos s1 a l hc,
        first_occurrence_dedup_pos s2 a l hc2]
      exact congrArg (a :: ·) (ih (a :: s1) (a :: s2)
        (fun x => by simp [List.mem_cons, h x]))
    · have hc2 : ¬(a ∉ s2 ∧ a.length > 2) := fun hk =>
        hc ⟨fun hm => hk.1 ((h a).mp hm), hk.2⟩
      rw [first_occurrence_dedup_neg s1 a l hc,
        first_occurrence_dedup_neg s2 a l hc2]
      exact ih s1 s2 h

/-- The source's dedup fold computes exactly the spec-side
first-occurrence dedup appended to the accumulator. -/
theorem dedup_foldl_eq : ∀ (l acc : List String),
    l.foldl dedup_step acc = acc ++ first_occurrence_dedup acc l := by
  intro l
  induction l with
  | nil =>
    intro acc
    simp [first_occurrence_dedup]
  | cons a l ih =>
    intro acc
    rw [List.foldl_cons]
    by_cases hc : a ∉ acc ∧ a.length > 2
    · rw [dedup_step_pos acc a hc, first_occurrence_dedup_pos acc a l hc,
        ih (acc ++ [a]),
        first_occurrence_dedup_congr l (acc ++ [a]) (a :: acc)
          (fun x => by simp [List.mem_append, List.mem_cons, or_comm])]
      simp
    · rw [dedup_step_neg acc a hc, first_occurrence_dedup_neg acc a l hc,
        ih acc]

/-- Every element the spec-side dedup keeps comes from the input, was not
already seen, and is longer than 2 characters. -/
theorem mem_first_occurrence_dedup : ∀ (l seen : List String) (x : String),
    x ∈ first_occurrence_dedup seen l →
    x ∈ l ∧ x ∉ seen ∧ x.length > 2 := by
  intro l
  induction l with
  | nil =>
    intro seen x hx
    simp [first_occurrence_dedup] at hx
  | cons a l ih =>
    intro seen x hx
    by_cases hc : a ∉ seen ∧ a.length > 2
    · rw [first_occurrence_dedup_pos seen a l hc] at hx
      rcases List.mem_cons.mp hx with rfl | hx2
      · exact ⟨List.mem_cons_self x l, hc.1, hc.2⟩
      · obtain ⟨hl, hns, hlen⟩ := ih (a :: seen) x hx2
        exact ⟨List.mem_cons_of_mem a hl,
          fun hm => hns (List.mem_cons_of_mem a hm), hlen⟩
    · rw [first_occurrence_dedup_neg seen a l hc] at hx
      obtain ⟨hl, hns, hlen⟩ := ih seen x hx
      exact ⟨List.mem_cons_of_mem a hl, hns, hlen⟩

/-- The spec-side dedup lists its elements in strictly increasing order of
their first occurrence in the input. -/
theorem pairwise_indexOf_first_occurrence : ∀ (l seen : List String),
    (first_occurrence_dedup seen l).Pairwise
      (fun x y => l.indexOf x < l.indexOf y) := by
  intro l
  induction l with
  | nil =>
    intro seen
    exact List.Pairwise.nil
  | cons a l ih =>
    intro seen
    by_cases hc : a ∉ seen ∧ a.length > 2
    · rw [first_occurrence_dedup_pos seen a l hc, List.pairwise_cons]
      constructor
      · intro y hy
        obtain ⟨hyl, hyns, hylen⟩ := mem_first_occurrence_dedup l (a :: seen) y hy
        have hya : a ≠ y := fun he =>
          hyns (he ▸ List.mem_cons_self a seen)
        rw [List.indexOf_cons_self, List.indexOf_cons_ne l hya]
        exact Nat.succ_pos _
      · refine (ih (a :: seen)).imp_of_mem ?_
        intro x y hx hy hr
        have hxa : a ≠ x := fun he =>
          (mem_first_occurrence_dedup l (a :: seen) x hx).2.1
            (he ▸ List.mem_cons_self a seen)
        have hya : a ≠ y := fun he =>
          (mem_first_occurrence_dedup l (a :: seen) y hy).2.1
            (he ▸ List.mem_cons_self a seen)
        rw [List.indexOf_cons_ne l hxa, List.indexOf_cons_ne l hya]
        omega
    · rw [first_occurrence_dedup_neg seen a l hc]
      refine (ih seen).imp_of_mem ?_
      intro x y hx hy hr
      have hxa : a ≠ x := by
        obtain ⟨_, hns, hlen⟩ := mem_first_occurrence_dedup l seen x hx
        intro he
        exact hc ⟨he ▸ hns, he ▸ hlen⟩
      have hya : a ≠ y := by
        obtain ⟨_, hns, hlen⟩ := mem_first_occurrence_dedup l seen y hy
        intro he
        exact hc ⟨he ▸ hns, he ▸ hlen⟩
      rw [List.indexOf_cons_ne l hxa, List.indexOf_cons_ne l hya]
      omega

/-- C5: the aspect extractor is exactly the first-occurrence
deduplication of the raw extraction sequence truncated to its first 5
terms; consequently it has at most 5 terms, no duplicates, is a sublist of
the raw sequence, and lists terms in strictly increasing order of their
first occurrence in that sequence. -/
theorem extract_aspects_bounded_nodup (env : Resources) (t : String) :
    extract_aspects env t
      = (first_occurrence_dedup [] (raw_aspects env t)).take 5 ∧
    (extract_aspects env t).length ≤ 5 ∧
    (extract_aspects env t).Nodup ∧
    List.Sublist (extract_aspects env t) (raw_aspects env t) ∧
    (extract_aspects env t).Pairwise (fun x y =>
      (raw_aspects env t).indexOf x < (raw_aspects env t).indexOf y) := by
  have he : extract_aspects env t
      = (first_occurrence_dedup [] (raw_aspects env t)).take 5 := by
    unfold extract_aspects
    rw [dedup_foldl_eq (raw_aspects env t) [], List.nil_append]
  refine ⟨he, ?_, ?_, ?_, ?_⟩
  · exact List.length_take_le 5 _
  · exact (List.take_sublist 5 _).nodup
      (dedup_foldl_nodup (raw_aspects env t) [] List.nodup_nil)
  · refine (List.take_sublist 5 _).trans ?_
    have h := dedup_foldl_sublist (raw_aspects env t) []
    simpa using h
  · rw [he]
    exact (pairwise_indexOf_first_occurrence (raw_aspects env t) []).sublist
      (List.take_sublist 5 _)

/-- C10: every term returned by the aspect extractor is longer than 2
characters — the length filter in the deduplication pass applies to noun
phrases from the primary strategy as well as to fallback nouns. -/
theorem extract_aspects_min_length (env : Resources) (t : String)
    (a : String) (h : a ∈ extract_aspects env t) : a.length > 2 := by
  have hmem : a ∈ (raw_aspects env t).foldl dedup_step [] :=
    (List.take_sublist 5 _).mem h
  exact dedup_foldl_long (raw_aspects env t) [] (by intro x hx; cases hx) a hmem

/-- C10 witness: with a chunker returning ["food", "service"], the term
"food" is extracted and has length 4 > 2. -/
theorem extract_aspects_min_length_witness :
    "food" ∈ extract_aspects aspect_resources "The food was great." ∧
    ("food" : String).length > 2 :=
  ⟨by decide, extract_aspects_min_length aspect_resources
    "The food was great." "food" (by decide)⟩

/-- With no matching sentence, the resolver copies the whole-document
sentiment and uses the fixed sentinel context. -/
theorem resolve_aspect_empty (env : Resources) (text : String)
    (sentences : List String) (a : String)
    (h : (sentences.filter fun s =>
      containsSubstr (str_lower a) (str_lower s)).isEmpty) :
    resolve_aspect env text sentences a =
      { aspect := a
        sentiment := (perform_basic_sentiment_analysis env text).classification
        score := (perform_basic_sentiment_analysis env text).compound
        context := "Inferred from overall text" } := by
  simp only [resolve_aspect]
  rw [if_pos h]

/-- With at least one matching sentence, the resolver averages the
per-sentence compounds, classifies the average, and takes the first
matching sentence as context. -/
theorem resolve_aspect_nonempty (env : Resources) (text : String)
    (sentences : List String) (a : String)
    (h : ¬((sentences.filter fun s =>
      containsSubstr (str_lower a) (str_lower s)).isEmpty = true)) :
    resolve_aspect env text sentences a =
      { aspect := a
        sentiment := classify_compound
          ((((sentences.filter fun s =>
                containsSubstr (str_lower a) (str_lower s)).map
              (perform_basic_sentiment_analysis env)).map
            (fun r => r.compound)).sum /
          ((sentences.filter fun s =>
            containsSubstr (str_lower a) (str_lower s)).length : ℚ))
        score := (((sentences.filter fun s =>
              containsSubstr (str_lower a) (str_lower s)).map
            (perform_basic_sentiment_analysis env)).map
          (fun r => r.compound)).sum /
          ((sentences.filter fun s =>
            containsSubstr (str_lower a) (str_lower s)).length : ℚ)
        context := (sentences.filter fun s =>
          containsSubstr (str_lower a) (str_lower s)).headD "" } := by
  simp only [resolve_aspect]
  rw [if_neg h]

/-- Per-aspect behaviour of the resolver loop body: the record carries the
aspect term and either the averaged matching-sentence sentiment with the
first matching sentence as context, or the document-level fallback with
the sentinel context. -/
theorem resolve_aspect_cases (env : Resources) (text : String)
    (sentences : List String) (a : String) :
    (resolve_aspect env text sentences a).aspect = a ∧
    (if (sentences.filter fun s =>
        containsSubstr (str_lower a) (str_lower s)).isEmpty then
      (resolve_aspect env text sentences a).sentiment =
          (perform_basic_sentiment_analysis env text).classification ∧
      (resolve_aspect env text sentences a).score =
          (perform_basic_sentiment_analysis env text).compound ∧
      (resolve_aspect env text sentences a).context =
          "Inferred from overall text"
    else
      (resolve_aspect env text sentences a).score =
          ((sentences.filter fun s =>
              containsSubstr (str_lower a) (str_lower s)).map fun s =>
            (perform_basic_sentiment_analysis env s).compound).sum /
          ((sentences.filter fun s =>
            containsSubstr (str_lower a) (str_lower s)).length : ℚ) ∧
      (resolve_aspect env text sentences a).sentiment =
          classify_compound (resolve_aspect env text sentences a).score ∧
      (resolve_aspect env text sentences a).context =
          (sentences.filter fun s =>
            containsSubstr (str_lower a) (str_lower s)).headD "") := by
  by_cases hrel : (sentences.filter fun s =>
      containsSubstr (str_lower a) (str_lower s)).isEmpty
  · rw [resolve_aspect_empty env text sentences a hrel, if_pos hrel]
    exact ⟨rfl, rfl, rfl, rfl⟩
  · rw [resolve_aspect_nonempty env text sentences a hrel, if_neg hrel]
    refine ⟨rfl, ?_, rfl, rfl⟩
    show (((sentences.filter fun s =>
        containsSubstr (str_lower a) (str_lower s)).map
      (perform_basic_sentiment_analysis env)).map
        (fun r => r.compound)).sum /
      ((sentences.filter fun s =>
        containsSubstr (str_lower a) (str_lower s)).length : ℚ) = _
    rw [List.map_map]
    rfl

/-- C2: the resolver returns exactly one record per input aspect term, in
order; a record carries the average compound over the sentences matching
its term (classified by the fixed thresholds, first matching sentence as
context) when matches exist, and otherwise copies the whole-document
sentiment with the fixed sentinel context. -/
theorem resolve_one_record_per_aspect (env : Resources) (text : String)
    (aspects : List String) :
    (resolve env text aspects).length = aspects.length ∧
    List.Forall₂ (fun a r =>
      r.aspect = a ∧
      (if ((env.sent_tokenize text).filter fun s =>
          containsSubstr (str_lower a) (str_lower s)).isEmpty then
        r.sentiment =
            (perform_basic_sentiment_analysis env text).classification ∧
        r.score = (perform_basic_sentiment_analysis env text).compound ∧
        r.context = "Inferred from overall text"
      else
        r.score = (((env.sent_tokenize text).filter fun s =>
              containsSubstr (str_lower a) (str_lower s)).map fun s =>
            (perform_basic_sentiment_analysis env s).compound).sum /
          (((env.sent_tokenize text).filter fun s =>
            containsSubstr (str_lower a) (str_lower s)).length : ℚ) ∧
        r.sentiment = classify_compound r.score ∧
        r.context = ((env.sent_tokenize text).filter fun s =>
          containsSubstr (str_lower a) (str_lower s)).headD ""))
      aspects (resolve env text aspects) := by
  constructor
  · simp [resolve]
  · rw [resolve, List.forall₂_map_right_iff, List.forall₂_same]
    intro a ha
    exact resolve_aspect_cases env text (env.sent_tokenize text) a
